import Mathlib

/-! Shallow embedding of the chat server in `src/server.js`.

The server keeps four in-memory maps:
  `users`        : userId -> user record (socketId, phoneNumber, name, password hash, ...)
  `messages`     : chatId -> array of stored messages
  `userSockets`  : socketId -> userId
  `usersByPhone` : normalized phone -> userId
plus the socket.io room membership created by `socket.join(chatId)`.

JavaScript maps are modelled as functions `String → Option α`; absent object
fields are modelled as `none`; JavaScript string falsiness (`!s` true for the
empty string and for `undefined`) is modelled explicitly.  `Date.now()` and the
random id generator are modelled as explicit inputs (`now : Nat`,
`gen : Nat → String`), and the SHA-256 hash as an abstract function
`hash : String → String`.
-/

namespace ChatServer

/-- User record stored in the `users` map (see `users.set(userId, {...})`). -/
structure User where
  socketId : Option String
  phoneNumber : String
  name : String
  password : String
  country : String
  language : String
  lastSeen : Nat
  createdAt : Nat
deriving DecidableEq, Repr

/-- Inbound chat message as supplied by the client: `userId` and `timestamp`
may be absent, and the rest of the object is opaque payload. -/
structure Msg where
  userId : Option String
  timestamp : Option Nat
  payload : String
deriving DecidableEq, Repr

/-- Message as stored in the history: the spread `{...message}` with
`timestamp` and `userId` resolved to definite values. -/
structure StoredMsg where
  userId : String
  timestamp : Nat
  payload : String
deriving DecidableEq, Repr

/-- Public identity summary returned by `login` and the lookup endpoints:
exactly the fields id, phoneNumber, name, country, language, lastSeen. -/
structure UserSummary where
  id : String
  phoneNumber : String
  name : String
  country : String
  language : String
  lastSeen : Nat
deriving DecidableEq, Repr

/-- The whole mutable state of the server process. -/
structure ServerState where
  users : String → Option User
  messages : String → Option (List StoredMsg)
  userSockets : String → Option String
  usersByPhone : String → Option String
  rooms : String → List String

/-- State after the startup clear: every map empty, no room has members. -/
def initState : ServerState :=
  { users := fun _ => none
    messages := fun _ => none
    userSockets := fun _ => none
    usersByPhone := fun _ => none
    rooms := fun _ => [] }

/-- Map update, modelling `m.set(k, v)`. -/
def upd {α : Type} (m : String → Option α) (k : String) (v : α) : String → Option α :=
  fun k' => if k' = k then some v else m k'

/-- Map deletion, modelling `m.delete(k)`. -/
def del {α : Type} (m : String → Option α) (k : String) : String → Option α :=
  fun k' => if k' = k then none else m k'

/-- JavaScript `a || dflt` on an optional string: falsy (`undefined` or `""`)
falls through to the default. -/
def truthyOr (o : Option String) (dflt : String) : String :=
  match o with
  | none => dflt
  | some s => if s = "" then dflt else s

/-- Truthiness test for an optional string field (`!x` in JavaScript). -/
def falsyStr (o : Option String) : Bool :=
  match o with
  | none => true
  | some s => s = ""

/-- Phone normalization used by register, login and the phone lookups:
`phoneNumber.startsWith('+') ? phoneNumber : '+' + phoneNumber`. -/
def normalizePhone (phone : String) : String :=
  if phone.startsWith "+" then phone else "+" ++ phone

/-- Channel id for a pair of users: `[userId1, userId2].sort().join('_')`,
with the default lexicographic string comparison of the sort. -/
def getChatId (userId1 userId2 : String) : String :=
  String.intercalate "_" (List.mergeSort [userId1, userId2] (fun x y => x ≤ y))

/-- Id retry loop of the register handler: starting from candidate `userId`
with `attempts` retries used, keep drawing `gen (attempts+1)` while the
candidate collides and `attempts < 5`. -/
def idSearch (users : String → Option User) (gen : Nat → String)
    (userId : String) (attempts : Nat) : String :=
  if h : (users userId).isSome ∧ attempts < 5 then
    idSearch users gen (gen (attempts + 1)) (attempts + 1)
  else userId
termination_by 5 - attempts
decreasing_by
  omega

/-- Payload of the `register` event. -/
structure RegisterData where
  phoneNumber : Option String
  name : Option String
  password : Option String
  country : Option String
deriving DecidableEq, Repr

/-- Callback outcomes of the `register` handler. -/
inductive RegisterResult where
  | missingPhone
  | alreadyRegistered (userId : String)
  | idExhausted
  | ok (userId : String)
deriving DecidableEq, Repr

/-- The user record inserted by a successful registration:
`password || ''` is hashed, `name || ''` and `country || ''` default to
the empty string, `language` is fixed to `'en'`, both timestamps are the
registration time, and the socket of the registering connection is bound. -/
def freshUser (hash : String → String) (now : Nat) (sid : String)
    (normalizedPhone : String) (d : RegisterData) : User :=
  { socketId := some sid
    phoneNumber := normalizedPhone
    name := (d.name).getD ""
    password := hash ((d.password).getD "")
    country := (d.country).getD ""
    language := "en"
    lastSeen := now
    createdAt := now }

/-- The `register` handler.  `gen i` is the i-th value produced by
`generateShortId`, `now` is `Date.now()`, `sid` is `socket.id`. -/
def registerOp (hash : String → String) (gen : Nat → String) (now : Nat)
    (sid : String) (d : RegisterData) (s : ServerState) :
    RegisterResult × ServerState :=
  match d.phoneNumber with
  | none => (.missingPhone, s)
  | some phone =>
    if phone = "" then (.missingPhone, s)
    else
      let normalizedPhone := normalizePhone phone
      match s.usersByPhone normalizedPhone with
      | some existingUserId => (.alreadyRegistered existingUserId, s)
      | none =>
        let userId := idSearch s.users gen (gen 0) 0
        if (s.users userId).isSome then (.idExhausted, s)
        else
          (.ok userId,
            { s with
                users := upd s.users userId (freshUser hash now sid normalizedPhone d)
                usersByPhone := upd s.usersByPhone normalizedPhone userId
                userSockets := upd s.userSockets sid userId })

/-- Payload of the `login` event. -/
structure LoginData where
  phoneNumber : Option String
  password : Option String
deriving DecidableEq, Repr

/-- Callback outcomes of the `login` handler. -/
inductive LoginResult where
  | missingField
  | notFound
  | invalidCredential
  | ok (userId : String) (user : UserSummary)
deriving DecidableEq, Repr

/-- Public summary object built by the login and lookup handlers. -/
def publicSummary (userId : String) (u : User) : UserSummary :=
  { id := userId
    phoneNumber := u.phoneNumber
    name := u.name
    country := u.country
    language := u.language
    lastSeen := u.lastSeen }

/-- The `login` handler. -/
def loginOp (hash : String → String) (now : Nat) (sid : String)
    (d : LoginData) (s : ServerState) : LoginResult × ServerState :=
  match d.phoneNumber, d.password with
  | some phone, some password =>
    if phone = "" ∨ password = "" then (.missingField, s)
    else
      let normalizedPhone := normalizePhone phone
      match s.usersByPhone normalizedPhone with
      | none => (.notFound, s)
      | some userId =>
        if userId = "" then (.notFound, s)
        else
          match s.users userId with
          | none => (.notFound, s)
          | some user =>
            let hashedPassword := hash password
            if user.password ≠ hashedPassword then (.invalidCredential, s)
            else
              let user' := { user with socketId := some sid, lastSeen := now }
              (.ok userId (publicSummary userId user'),
                { s with
                    users := upd s.users userId user'
                    userSockets := upd s.userSockets sid userId })
  | _, _ => (.missingField, s)

/-- Outcomes of the `join_chat` handler: an error event or the
`chat_history` emission. -/
inductive JoinResult where
  | joinError
  | history (chatId : String) (msgs : List StoredMsg)
deriving DecidableEq, Repr

/-- The `join_chat` handler: validates the fields, adds the socket to the
room (socket.io `join` is idempotent), and emits the channel history. -/
def joinChatOp (sid : String) (chatId userId : Option String)
    (s : ServerState) : JoinResult × ServerState :=
  match chatId, userId with
  | some cid, some uid =>
    if cid = "" ∨ uid = "" then (.joinError, s)
    else
      let members := s.rooms cid
      let rooms' := fun c =>
        if c = cid then (if sid ∈ members then members else members ++ [sid])
        else s.rooms c
      (.history cid ((s.messages cid).getD []), { s with rooms := rooms' })
  | _, _ => (.joinError, s)

/-- Outcomes of the `send_message` handler: an error event or the
`new_message` broadcast carrying the stored message. -/
inductive SendResult where
  | messageError
  | broadcast (chatId : String) (message : StoredMsg)
deriving DecidableEq, Repr

/-- Sender resolution of the stored message:
`message.userId || userSockets.get(socket.id) || 'unknown'`. -/
def resolvedSender (msg : Msg) (binding : Option String) : String :=
  truthyOr msg.userId (truthyOr binding "unknown")

/-- Timestamp resolution of the stored message:
`message.timestamp || Date.now()` (a numeric `0` is falsy). -/
def resolvedTimestamp (msg : Msg) (now : Nat) : Nat :=
  match msg.timestamp with
  | some t => if t = 0 then now else t
  | none => now

/-- The `send_message` handler: validates the fields, resolves `userId` via
`message.userId || userSockets.get(socket.id) || 'unknown'` and `timestamp`
via `message.timestamp || Date.now()`, and appends to the lazily created
history of the channel. -/
def sendMessageOp (now : Nat) (sid : String) (chatId : Option String)
    (message : Option Msg) (s : ServerState) : SendResult × ServerState :=
  match chatId, message with
  | some cid, some msg =>
    if cid = "" then (.messageError, s)
    else
      let base := (s.messages cid).getD []
      let stored : StoredMsg :=
        { payload := msg.payload
          timestamp := resolvedTimestamp msg now
          userId := resolvedSender msg (s.userSockets sid) }
      (.broadcast cid stored,
        { s with messages := upd s.messages cid (base ++ [stored]) })
  | _, _ => (.messageError, s)

/-- The `disconnect` handler: if the socket is bound to a (truthy) userId,
stamp that user's `lastSeen`, null its `socketId`, and remove the
connection-index entry; otherwise do nothing. -/
def disconnectOp (now : Nat) (sid : String) (s : ServerState) : ServerState :=
  match s.userSockets sid with
  | none => s
  | some userId =>
    if userId = "" then s
    else
      let users' := match s.users userId with
        | some user => upd s.users userId { user with lastSeen := now, socketId := none }
        | none => s.users
      { s with users := users', userSockets := del s.userSockets sid }

/-- The `DELETE /users` endpoint: clears users, phone index, connection
index and all message histories. -/
def clearAllOp (s : ServerState) : ServerState :=
  { s with
      users := fun _ => none
      usersByPhone := fun _ => none
      userSockets := fun _ => none
      messages := fun _ => none }

/-- The `DELETE /users/clear` endpoint: clears users, phone index and
connection index but keeps the message histories. -/
def clearUsersOp (s : ServerState) : ServerState :=
  { s with
      users := fun _ => none
      usersByPhone := fun _ => none
      userSockets := fun _ => none }

/-- One inbound event, with its transport-level inputs (socket id, clock
value, random id draws) made explicit. -/
inductive Op where
  | register (gen : Nat → String) (now : Nat) (sid : String) (d : RegisterData)
  | login (now : Nat) (sid : String) (d : LoginData)
  | joinChat (sid : String) (chatId userId : Option String)
  | sendMessage (now : Nat) (sid : String) (chatId : Option String) (message : Option Msg)
  | disconnect (now : Nat) (sid : String)
  | clearAll
  | clearUsers

/-- State transition of one event. -/
def step (hash : String → String) (s : ServerState) : Op → ServerState
  | .register gen now sid d => (registerOp hash gen now sid d s).2
  | .login now sid d => (loginOp hash now sid d s).2
  | .joinChat sid cid uid => (joinChatOp sid cid uid s).2
  | .sendMessage now sid cid msg => (sendMessageOp now sid cid msg s).2
  | .disconnect now sid => disconnectOp now sid s
  | .clearAll => clearAllOp s
  | .clearUsers => clearUsersOp s

/-- Run a sequence of events from the startup state. -/
def run (hash : String → String) (ops : List Op) : ServerState :=
  ops.foldl (step hash) initState

/-- A state is reachable when some event sequence produces it. -/
def Reachable (hash : String → String) (s : ServerState) : Prop :=
  ∃ ops : List Op, run hash ops = s

/-- Whether an event is one of the two bulk-clear endpoints. -/
def Op.clears : Op → Bool
  | .clearAll => true
  | .clearUsers => true
  | _ => false

/-! Bridge lemmas relating `String.startsWith "+"` (used verbatim by the
phone normalization in the source) to the first character of the string. -/

theorem substrEq_loop_unfold (s1 s2 : String) (off1 off2 stop1 : String.Pos) :
    String.substrEq.loop s1 s2 off1 off2 stop1 =
      if off1.byteIdx < stop1.byteIdx then
        ((s1.get off1 == s2.get off2) &&
          String.substrEq.loop s1 s2 (off1 + s1.get off1) (off2 + s2.get off2) stop1)
      else true := by
  rw [String.substrEq.loop]
  split <;> rfl

theorem substrEq_one (c : Char) (cs : List Char) (h1 : c.utf8Size = 1) :
    String.substrEq ⟨c :: cs⟩ ⟨0⟩ "+" ⟨0⟩ 1 = (c == '+') := by
  have hget : (String.mk (c :: cs)).get ⟨0⟩ = c := by
    simpa using String.get_of_valid [] (c :: cs)
  have hgetp : ("+" : String).get ⟨0⟩ = '+' := rfl
  rw [String.substrEq]
  rw [substrEq_loop_unfold]
  rw [if_pos (by norm_num)]
  rw [hget, hgetp]
  rw [substrEq_loop_unfold]
  rw [if_neg (by simp [h1])]
  rw [Bool.and_true]
  have e1 : decide ((⟨0⟩ : String.Pos).byteIdx + 1 ≤ (String.endPos ⟨c :: cs⟩).byteIdx) = true := by
    have hc := Char.utf8Size_pos c
    rw [decide_eq_true_eq, String.endPos_eq]
    simp only [String.utf8Len_cons]
    omega
  have e2 : decide ((⟨0⟩ : String.Pos).byteIdx + 1 ≤ ("+" : String).endPos.byteIdx) = true := by
    rfl
  rw [e1, e2]
  rw [Bool.true_and, Bool.true_and]

theorem take_one_validFor (c : Char) (cs : List Char) :
    Substring.ValidFor [] [c] cs ((String.mk (c :: cs)).toSubstring.take 1) := by
  have h := (String.validFor_toSubstring (String.mk (c :: cs))).take 1
  simpa using h

/-- Characterization of `s.startsWith "+"`: it holds exactly when the first
character of `s` is `'+'`. -/
theorem startsWith_plus (s : String) : s.startsWith "+" = (s.1.head? == some '+') := by
  obtain ⟨l⟩ := s
  match l with
  | [] => decide
  | c :: cs =>
    have hval := take_one_validFor c cs
    rw [String.startsWith]
    show (((String.mk (c :: cs)).toSubstring.take ("+" : String).length) == ("+" : String).toSubstring) = _
    have hlen : ("+" : String).length = 1 := rfl
    rw [hlen]
    rw [BEq.beq]
    show Substring.beq _ _ = _
    rw [Substring.beq]
    rw [hval.bsize, hval.startPos, hval.str]
    have h2str : ("+" : String).toSubstring.str = "+" := rfl
    have h2start : ("+" : String).toSubstring.startPos = ⟨0⟩ := rfl
    have h2bsize : ("+" : String).toSubstring.bsize = 1 := rfl
    rw [h2str, h2start, h2bsize]
    simp only [List.nil_append, List.singleton_append, String.utf8Len_cons,
      String.utf8Len_nil, Nat.zero_add]
    by_cases hsz : c.utf8Size = 1
    · rw [hsz, substrEq_one c cs hsz]
      simp
    · have hc : c ≠ '+' := by
        intro h
        exact hsz (by rw [h]; rfl)
      have hb : (c.utf8Size == 1) = false := by
        simp [hsz]
      rw [hb, Bool.false_and]
      simp [hc]

/-- Any string of the form `"+" ++ p` starts with `"+"`. -/
theorem startsWith_plus_append (p : String) : ("+" ++ p).startsWith "+" = true := by
  rw [startsWith_plus]
  have : ("+" ++ p).1 = '+' :: p.1 := by
    simp [String.data_append]
  rw [this]
  simp

/-- A string all of whose characters are digits does not start with `"+"`. -/
theorem startsWith_plus_of_digits (p : String) (h : p.1.all Char.isDigit) :
    p.startsWith "+" = false := by
  rw [startsWith_plus]
  match hd : p.1 with
  | [] => simp
  | c :: cs =>
    rw [hd] at h
    simp only [List.all_cons, Bool.and_eq_true] at h
    have hc : c ≠ '+' := by
      intro he
      rw [he] at h
      exact absurd h.1 (by decide)
    simp [hc]

/-! Outcome characterizations of the two mutating identity operations. -/

/-- The register handler either leaves the state untouched (an error path)
or succeeds with the id found by the retry loop, performing exactly the
three map insertions of the source. -/
theorem registerOp_cases (hash : String → String) (gen : Nat → String) (now : Nat)
    (sid : String) (d : RegisterData) (s : ServerState) :
    ((registerOp hash gen now sid d s).2 = s
      ∧ ∀ uid, (registerOp hash gen now sid d s).1 ≠ .ok uid)
    ∨ ∃ phone,
        d.phoneNumber = some phone ∧ phone ≠ "" ∧
        s.usersByPhone (normalizePhone phone) = none ∧
        s.users (idSearch s.users gen (gen 0) 0) = none ∧
        registerOp hash gen now sid d s =
          (.ok (idSearch s.users gen (gen 0) 0),
            { s with
                users := upd s.users (idSearch s.users gen (gen 0) 0)
                  (freshUser hash now sid (normalizePhone phone) d)
                usersByPhone := upd s.usersByPhone (normalizePhone phone)
                  (idSearch s.users gen (gen 0) 0)
                userSockets := upd s.userSockets sid (idSearch s.users gen (gen 0) 0) }) := by
  unfold registerOp
  match hph : d.phoneNumber with
  | none => exact Or.inl ⟨rfl, fun uid h => RegisterResult.noConfusion h⟩
  | some phone =>
    by_cases hpe : phone = ""
    · simp only [hpe, if_pos rfl]
      exact Or.inl ⟨rfl, fun uid h => RegisterResult.noConfusion h⟩
    · simp only [if_neg hpe]
      match hbp : s.usersByPhone (normalizePhone phone) with
      | some existingUserId => exact Or.inl ⟨rfl, fun uid h => RegisterResult.noConfusion h⟩
      | none =>
        by_cases hex : (s.users (idSearch s.users gen (gen 0) 0)).isSome
        · simp only [hex, if_pos rfl]
          exact Or.inl ⟨rfl, fun uid h => RegisterResult.noConfusion h⟩
        · simp only [hex]
          refine Or.inr ⟨phone, rfl, hpe, hbp, ?_, ?_⟩
          · exact Option.not_isSome_iff_eq_none.mp (by simp [hex])
          · simp

/-- The login handler either leaves the state untouched (an error path) or
succeeds: all field checks pass, the phone resolves, the hash matches, and
exactly the connection rebinding and `lastSeen` update happen. -/
theorem loginOp_cases (hash : String → String) (now : Nat) (sid : String)
    (d : LoginData) (s : ServerState) :
    ((loginOp hash now sid d s).2 = s
      ∧ ∀ uid r, (loginOp hash now sid d s).1 ≠ .ok uid r)
    ∨ ∃ phone password uid user,
        d.phoneNumber = some phone ∧ d.password = some password ∧
        phone ≠ "" ∧ password ≠ "" ∧
        s.usersByPhone (normalizePhone phone) = some uid ∧ uid ≠ "" ∧
        s.users uid = some user ∧ user.password = hash password ∧
        loginOp hash now sid d s =
          (.ok uid (publicSummary uid { user with socketId := some sid, lastSeen := now }),
            { s with
                users := upd s.users uid { user with socketId := some sid, lastSeen := now }
                userSockets := upd s.userSockets sid uid }) := by
  unfold loginOp
  match hph : d.phoneNumber, hpw : d.password with
  | none, none => exact Or.inl ⟨rfl, fun uid r h => LoginResult.noConfusion h⟩
  | none, some _ => exact Or.inl ⟨rfl, fun uid r h => LoginResult.noConfusion h⟩
  | some _, none => exact Or.inl ⟨rfl, fun uid r h => LoginResult.noConfusion h⟩
  | some phone, some password =>
    dsimp only
    by_cases hpe : phone = "" ∨ password = ""
    · rw [if_pos hpe]
      exact Or.inl ⟨rfl, fun uid r h => LoginResult.noConfusion h⟩
    · rw [if_neg hpe]
      push_neg at hpe
      match hbp : s.usersByPhone (normalizePhone phone) with
      | none => exact Or.inl ⟨rfl, fun uid r h => LoginResult.noConfusion h⟩
      | some uid =>
        dsimp only
        by_cases hue : uid = ""
        · rw [if_pos hue]
          exact Or.inl ⟨rfl, fun uid r h => LoginResult.noConfusion h⟩
        · rw [if_neg hue]
          match hus : s.users uid with
          | none => exact Or.inl ⟨rfl, fun uid r h => LoginResult.noConfusion h⟩
          | some user =>
            dsimp only
            by_cases hmatch : user.password ≠ hash password
            · rw [if_pos hmatch]
              exact Or.inl ⟨rfl, fun uid r h => LoginResult.noConfusion h⟩
            · rw [if_neg hmatch]
              push_neg at hmatch
              exact Or.inr ⟨phone, password, uid, user, rfl, rfl, hpe.1, hpe.2,
                hbp, hue, hus, hmatch, rfl⟩

/-- The `join_chat` handler touches only the room membership. -/
theorem joinChatOp_frame (sid : String) (chatId userId : Option String) (s : ServerState) :
    (joinChatOp sid chatId userId s).2.users = s.users ∧
    (joinChatOp sid chatId userId s).2.userSockets = s.userSockets ∧
    (joinChatOp sid chatId userId s).2.usersByPhone = s.usersByPhone ∧
    (joinChatOp sid chatId userId s).2.messages = s.messages := by
  unfold joinChatOp
  match chatId, userId with
  | none, none => exact ⟨rfl, rfl, rfl, rfl⟩
  | none, some _ => exact ⟨rfl, rfl, rfl, rfl⟩
  | some _, none => exact ⟨rfl, rfl, rfl, rfl⟩
  | some cid, some uid =>
    dsimp only
    split
    · exact ⟨rfl, rfl, rfl, rfl⟩
    · exact ⟨rfl, rfl, rfl, rfl⟩

/-- The `send_message` handler touches only the message histories. -/
theorem sendMessageOp_frame (now : Nat) (sid : String) (chatId : Option String)
    (message : Option Msg) (s : ServerState) :
    (sendMessageOp now sid chatId message s).2.users = s.users ∧
    (sendMessageOp now sid chatId message s).2.userSockets = s.userSockets ∧
    (sendMessageOp now sid chatId message s).2.usersByPhone = s.usersByPhone ∧
    (sendMessageOp now sid chatId message s).2.rooms = s.rooms := by
  unfold sendMessageOp
  match chatId, message with
  | none, none => exact ⟨rfl, rfl, rfl, rfl⟩
  | none, some _ => exact ⟨rfl, rfl, rfl, rfl⟩
  | some _, none => exact ⟨rfl, rfl, rfl, rfl⟩
  | some cid, some msg =>
    dsimp only
    split
    · exact ⟨rfl, rfl, rfl, rfl⟩
    · exact ⟨rfl, rfl, rfl, rfl⟩

/-- The disconnect handler either does nothing (unbound or falsy-bound
socket) or clears exactly the bound identity's socket pointer, stamps its
`lastSeen` and deletes the connection-index entry. -/
theorem disconnectOp_cases (now : Nat) (sid : String) (s : ServerState) :
    disconnectOp now sid s = s
    ∨ ∃ uid, s.userSockets sid = some uid ∧ uid ≠ "" ∧
        disconnectOp now sid s =
          { s with
              users := match s.users uid with
                | some user => upd s.users uid { user with lastSeen := now, socketId := none }
                | none => s.users
              userSockets := del s.userSockets sid } := by
  unfold disconnectOp
  match husd : s.userSockets sid with
  | none => exact Or.inl rfl
  | some uid =>
    dsimp only
    by_cases hue : uid = ""
    · rw [if_pos hue]
      exact Or.inl rfl
    · rw [if_neg hue]
      exact Or.inr ⟨uid, rfl, hue, rfl⟩

/-! Registry invariants that hold in every reachable state. -/

/-- Every connection-index entry points to an existing identity. -/
def SocketIndexInv (s : ServerState) : Prop :=
  ∀ sid uid, s.userSockets sid = some uid → (s.users uid).isSome

/-- Every identity is indexed in `usersByPhone` under its own phone number. -/
def PhoneIndexInv (s : ServerState) : Prop :=
  ∀ uid u, s.users uid = some u → s.usersByPhone u.phoneNumber = some uid

/-- The invariant claimed by the spec: every identity holding a non-null
socket pointer is pointed back to by the connection index at that socket. -/
def SocketBacklinkInv (s : ServerState) : Prop :=
  ∀ uid u sid, s.users uid = some u → u.socketId = some sid →
    s.userSockets sid = some uid

theorem socketIndexInv_step (hash : String → String) (s : ServerState) (op : Op)
    (h : SocketIndexInv s) : SocketIndexInv (step hash s op) := by
  cases op with
  | register gen now sid d =>
    show SocketIndexInv (registerOp hash gen now sid d s).2
    rcases registerOp_cases hash gen now sid d s with he | ⟨phone, _hph, _hpe, _hbp, _hnew, heq⟩
    · rw [he.1]; exact h
    · rw [heq]
      intro sid' uid' hl
      simp only [upd] at hl ⊢
      by_cases hs : sid' = sid
      · rw [if_pos hs] at hl
        have huid := Option.some.inj hl
        rw [← huid]
        simp
      · rw [if_neg hs] at hl
        by_cases huid : uid' = idSearch s.users gen (gen 0) 0
        · rw [if_pos huid]; simp
        · rw [if_neg huid]; exact h sid' uid' hl
  | login now sid d =>
    show SocketIndexInv (loginOp hash now sid d s).2
    rcases loginOp_cases hash now sid d s with he | ⟨phone, password, uid, user,
      _h1, _h2, _h3, _h4, _hbp, _hue, hus, _hm, heq⟩
    · rw [he.1]; exact h
    · rw [heq]
      intro sid' uid' hl
      simp only [upd] at hl ⊢
      by_cases hs : sid' = sid
      · rw [if_pos hs] at hl
        have huid := Option.some.inj hl
        rw [← huid]
        simp
      · rw [if_neg hs] at hl
        by_cases huid : uid' = uid
        · rw [if_pos huid]; simp
        · rw [if_neg huid]; exact h sid' uid' hl
  | joinChat sid cid uid =>
    show SocketIndexInv (joinChatOp sid cid uid s).2
    obtain ⟨hu, hs, _, _⟩ := joinChatOp_frame sid cid uid s
    intro sid' uid' hl
    rw [hs] at hl
    rw [hu]
    exact h sid' uid' hl
  | sendMessage now sid cid msg =>
    show SocketIndexInv (sendMessageOp now sid cid msg s).2
    obtain ⟨hu, hs, _, _⟩ := sendMessageOp_frame now sid cid msg s
    intro sid' uid' hl
    rw [hs] at hl
    rw [hu]
    exact h sid' uid' hl
  | disconnect now sid =>
    show SocketIndexInv (disconnectOp now sid s)
    rcases disconnectOp_cases now sid s with he | ⟨uid, husd, _hue, heq⟩
    · rw [he]; exact h
    · rw [heq]
      intro sid' uid' hl
      simp only [del] at hl
      by_cases hs : sid' = sid
      · rw [if_pos hs] at hl; exact absurd hl (by simp)
      · rw [if_neg hs] at hl
        have hold := h sid' uid' hl
        match hu : s.users uid with
        | some user =>
          simp only [upd]
          by_cases huid : uid' = uid
          · rw [if_pos huid]; simp
          · rw [if_neg huid]; exact hold
        | none => exact hold
  | clearAll =>
    intro sid uid hl
    exact absurd hl (by simp [step, clearAllOp])
  | clearUsers =>
    intro sid uid hl
    exact absurd hl (by simp [step, clearUsersOp])

theorem phoneIndexInv_step (hash : String → String) (s : ServerState) (op : Op)
    (h : PhoneIndexInv s) : PhoneIndexInv (step hash s op) := by
  cases op with
  | register gen now sid d =>
    show PhoneIndexInv (registerOp hash gen now sid d s).2
    rcases registerOp_cases hash gen now sid d s with he | ⟨phone, _hph, _hpe, hbp, _hnew, heq⟩
    · rw [he.1]; exact h
    · rw [heq]
      intro uid' u' hl
      simp only [upd] at hl ⊢
      by_cases huid : uid' = idSearch s.users gen (gen 0) 0
      · rw [if_pos huid] at hl
        have hu := Option.some.inj hl
        rw [← hu]
        simp only [freshUser]
        rw [if_pos trivial, huid]
      · rw [if_neg huid] at hl
        have hold := h uid' u' hl
        by_cases hp : u'.phoneNumber = normalizePhone phone
        · rw [hp] at hold
          rw [hbp] at hold
          exact absurd hold (by simp)
        · rw [if_neg hp]
          exact hold
  | login now sid d =>
    show PhoneIndexInv (loginOp hash now sid d s).2
    rcases loginOp_cases hash now sid d s with he | ⟨phone, password, uid, user,
      _h1, _h2, _h3, _h4, _hbp, _hue, hus, _hm, heq⟩
    · rw [he.1]; exact h
    · rw [heq]
      intro uid' u' hl
      simp only [upd] at hl
      by_cases huid : uid' = uid
      · rw [if_pos huid] at hl
        have hu := Option.some.inj hl
        rw [← hu]
        dsimp only
        rw [huid]
        exact h uid user hus
      · rw [if_neg huid] at hl
        exact h uid' u' hl
  | joinChat sid cid uid =>
    show PhoneIndexInv (joinChatOp sid cid uid s).2
    obtain ⟨hu, _, hp, _⟩ := joinChatOp_frame sid cid uid s
    intro uid' u' hl
    rw [hu] at hl
    rw [hp]
    exact h uid' u' hl
  | sendMessage now sid cid msg =>
    show PhoneIndexInv (sendMessageOp now sid cid msg s).2
    obtain ⟨hu, _, hp, _⟩ := sendMessageOp_frame now sid cid msg s
    intro uid' u' hl
    rw [hu] at hl
    rw [hp]
    exact h uid' u' hl
  | disconnect now sid =>
    show PhoneIndexInv (disconnectOp now sid s)
    rcases disconnectOp_cases now sid s with he | ⟨uid, husd, _hue, heq⟩
    · rw [he]; exact h
    · rw [heq]
      intro uid' u' hl
      match hu : s.users uid with
      | some user =>
        rw [hu] at hl
        simp only [upd] at hl
        by_cases huid : uid' = uid
        · rw [if_pos huid] at hl
          have := Option.some.inj hl
          rw [← this]
          dsimp only
          rw [huid]
          exact h uid user hu
        · rw [if_neg huid] at hl
          exact h uid' u' hl
      | none =>
        rw [hu] at hl
        exact h uid' u' hl
  | clearAll =>
    intro uid u hl
    exact absurd hl (by simp [step, clearAllOp])
  | clearUsers =>
    intro uid u hl
    exact absurd hl (by simp [step, clearUsersOp])

theorem foldl_step_preserves (hash : String → String) (P : ServerState → Prop)
    (hstep : ∀ s op, P s → P (step hash s op)) (ops : List Op) :
    ∀ s, P s → P (ops.foldl (step hash) s) := by
  induction ops with
  | nil => intro s h; exact h
  | cons op ops ih => intro s h; exact ih _ (hstep s op h)

theorem reachable_socketIndexInv (hash : String → String) (s : ServerState)
    (h : Reachable hash s) : SocketIndexInv s := by
  obtain ⟨ops, rfl⟩ := h
  refine foldl_step_preserves hash SocketIndexInv (socketIndexInv_step hash) ops initState ?_
  intro sid uid hl
  exact absurd hl (by simp [initState])

theorem reachable_phoneIndexInv (hash : String → String) (s : ServerState)
    (h : Reachable hash s) : PhoneIndexInv s := by
  obtain ⟨ops, rfl⟩ := h
  refine foldl_step_preserves hash PhoneIndexInv (phoneIndexInv_step hash) ops initState ?_
  intro uid u hl
  exact absurd hl (by simp [initState])

/-- Inversion of a successful register: every field check passed, the
issued id is the one found by the retry loop, and the state gained exactly
the three index entries. -/
theorem registerOp_ok (hash : String → String) (gen : Nat → String) (now : Nat)
    (sid : String) (d : RegisterData) (s s' : ServerState) (uid : String)
    (hok : registerOp hash gen now sid d s = (.ok uid, s')) :
    ∃ phone, d.phoneNumber = some phone ∧ phone ≠ "" ∧
      s.usersByPhone (normalizePhone phone) = none ∧
      s.users uid = none ∧
      uid = idSearch s.users gen (gen 0) 0 ∧
      s' = { s with
              users := upd s.users uid (freshUser hash now sid (normalizePhone phone) d)
              usersByPhone := upd s.usersByPhone (normalizePhone phone) uid
              userSockets := upd s.userSockets sid uid } := by
  rcases registerOp_cases hash gen now sid d s with he | ⟨phone, hph, hpe, hbp, hnew, heq⟩
  · exact absurd (congrArg Prod.fst hok) (he.2 uid)
  · rw [heq] at hok
    have h1 : RegisterResult.ok (idSearch s.users gen (gen 0) 0) = .ok uid :=
      congrArg Prod.fst hok
    have h2 : uid = idSearch s.users gen (gen 0) 0 := (RegisterResult.ok.inj h1).symm
    have h3 := congrArg Prod.snd hok
    dsimp only at h3
    refine ⟨phone, hph, hpe, hbp, ?_, h2, ?_⟩
    · rw [h2]; exact hnew
    · rw [← h3, h2]

/-- Inversion of a successful login: every check passed and the state
gained exactly the rebinding of the connection and the `lastSeen` stamp. -/
theorem loginOp_ok (hash : String → String) (now : Nat) (sid : String)
    (d : LoginData) (s s' : ServerState) (uid : String) (r : UserSummary)
    (hok : loginOp hash now sid d s = (.ok uid r, s')) :
    ∃ phone password user,
      d.phoneNumber = some phone ∧ d.password = some password ∧
      phone ≠ "" ∧ password ≠ "" ∧
      s.usersByPhone (normalizePhone phone) = some uid ∧ uid ≠ "" ∧
      s.users uid = some user ∧ user.password = hash password ∧
      r = publicSummary uid { user with socketId := some sid, lastSeen := now } ∧
      s' = { s with
              users := upd s.users uid { user with socketId := some sid, lastSeen := now }
              userSockets := upd s.userSockets sid uid } := by
  rcases loginOp_cases hash now sid d s with he | ⟨phone, password, uid0, user,
    h1, h2, h3, h4, hbp, hue, hus, hm, heq⟩
  · exact absurd (congrArg Prod.fst hok) (he.2 uid r)
  · rw [heq] at hok
    have hfst := congrArg Prod.fst hok
    dsimp only at hfst
    have huid : uid0 = uid := (LoginResult.ok.inj hfst).1
    have hr : r = publicSummary uid0 { user with socketId := some sid, lastSeen := now } :=
      ((LoginResult.ok.inj hfst).2).symm
    have hsnd := congrArg Prod.snd hok
    dsimp only at hsnd
    rw [huid] at hbp hue hus hr hsnd
    exact ⟨phone, password, user, h1, h2, h3, h4, hbp, hue, hus, hm, hr, hsnd.symm⟩

/-- A phone-index entry survives every event except the two bulk clears. -/
theorem usersByPhone_persist_step (hash : String → String) (s : ServerState) (op : Op)
    (p uid : String) (hop : op.clears = false) (h : s.usersByPhone p = some uid) :
    (step hash s op).usersByPhone p = some uid := by
  cases op with
  | register gen now sid d =>
    show (registerOp hash gen now sid d s).2.usersByPhone p = some uid
    rcases registerOp_cases hash gen now sid d s with he | ⟨phone, _hph, _hpe, hbp, _hnew, heq⟩
    · rw [he.1]; exact h
    · rw [heq]
      dsimp only
      simp only [upd]
      by_cases hp : p = normalizePhone phone
      · rw [hp] at h
        rw [h] at hbp
        exact absurd hbp (by simp)
      · rw [if_neg hp]
        exact h
  | login now sid d =>
    show (loginOp hash now sid d s).2.usersByPhone p = some uid
    rcases loginOp_cases hash now sid d s with he | ⟨phone, password, uid0, user,
      _h1, _h2, _h3, _h4, _hbp, _hue, _hus, _hm, heq⟩
    · rw [he.1]; exact h
    · rw [heq]; exact h
  | joinChat sid cid uid2 =>
    show (joinChatOp sid cid uid2 s).2.usersByPhone p = some uid
    rw [(joinChatOp_frame sid cid uid2 s).2.2.1]
    exact h
  | sendMessage now sid cid msg =>
    show (sendMessageOp now sid cid msg s).2.usersByPhone p = some uid
    rw [(sendMessageOp_frame now sid cid msg s).2.2.1]
    exact h
  | disconnect now sid =>
    show (disconnectOp now sid s).usersByPhone p = some uid
    rcases disconnectOp_cases now sid s with he | ⟨uid0, _hb, _hue, heq⟩
    · rw [he]; exact h
    · rw [heq]; exact h
  | clearAll => exact absurd hop (by simp [Op.clears])
  | clearUsers => exact absurd hop (by simp [Op.clears])

/-- A phone-index entry survives any clear-free sequence of events. -/
theorem usersByPhone_persist (hash : String → String) (ops : List Op) :
    ∀ (s : ServerState) (p uid : String), (∀ op ∈ ops, op.clears = false) →
      s.usersByPhone p = some uid →
      (ops.foldl (step hash) s).usersByPhone p = some uid := by
  induction ops with
  | nil =>
    intro s p uid _ h
    exact h
  | cons op ops ih =>
    intro s p uid hall h
    exact ih _ p uid (fun o ho => hall o (List.mem_cons_of_mem op ho))
      (usersByPhone_persist_step hash s op p uid (hall op (List.mem_cons_self op ops)) h)

/-- Characterization of collision of the final candidate of the id retry
loop: starting at candidate `userId` with `attempts = a`, the returned
candidate still collides exactly when the start candidate and all of
`gen (a+1) .. gen 5` collide. -/
theorem idSearch_isSome_iff (users : String → Option User) (gen : Nat → String) :
    ∀ (n a : Nat) (userId : String), n = 5 - a →
      (((users (idSearch users gen userId a)).isSome = true) ↔
        ((users userId).isSome = true ∧ ∀ i, a < i → i ≤ 5 → (users (gen i)).isSome = true)) := by
  intro n
  induction n with
  | zero =>
    intro a userId hn
    rw [idSearch, dif_neg (by omega)]
    constructor
    · intro h
      refine ⟨h, ?_⟩
      intro i h1 h2
      omega
    · intro h
      exact h.1
  | succ n ih =>
    intro a userId hn
    have ha : a < 5 := by omega
    by_cases hU : (users userId).isSome = true
    · rw [idSearch, dif_pos ⟨hU, ha⟩]
      rw [ih (a + 1) (gen (a + 1)) (by omega)]
      constructor
      · rintro ⟨hg, hrest⟩
        refine ⟨hU, ?_⟩
        intro i h1 h2
        by_cases hi : i = a + 1
        · rw [hi]; exact hg
        · exact hrest i (by omega) h2
      · rintro ⟨-, hall⟩
        exact ⟨hall (a + 1) (by omega) (by omega), fun i h1 h2 => hall i (by omega) h2⟩
    · rw [idSearch, dif_neg (fun hc => hU hc.1)]
      constructor
      · intro hcontra
        exact absurd hcontra hU
      · rintro ⟨h1, -⟩
        exact absurd h1 hU

/-- The id retry loop only ever returns one of the drawn candidates
`gen a, ..., gen 5` when started at candidate `gen a`. -/
theorem idSearch_result (users : String → Option User) (gen : Nat → String) :
    ∀ (n a : Nat), n = 5 - a → a ≤ 5 →
      ∃ j, a ≤ j ∧ j ≤ 5 ∧ idSearch users gen (gen a) a = gen j := by
  intro n
  induction n with
  | zero =>
    intro a hn ha
    refine ⟨a, le_refl a, ha, ?_⟩
    rw [idSearch, dif_neg (by omega)]
  | succ n ih =>
    intro a hn ha
    have ha5 : a < 5 := by omega
    by_cases hU : (users (gen a)).isSome = true
    · rw [idSearch, dif_pos ⟨hU, ha5⟩]
      obtain ⟨j, h1, h2, h3⟩ := ih (a + 1) (by omega) (by omega)
      exact ⟨j, by omega, h2, h3⟩
    · refine ⟨a, le_refl a, ha, ?_⟩
      rw [idSearch, dif_neg (fun hc => hU hc.1)]

/-- Reduction of the register handler once the phone checks have passed:
everything hinges on whether the final candidate of the retry loop is
still taken. -/
theorem registerOp_reduce (hash : String → String) (gen : Nat → String) (now : Nat)
    (sid : String) (d : RegisterData) (s : ServerState) (phone : String)
    (hph : d.phoneNumber = some phone) (hpe : phone ≠ "")
    (hbp : s.usersByPhone (normalizePhone phone) = none) :
    registerOp hash gen now sid d s =
      (if (s.users (idSearch s.users gen (gen 0) 0)).isSome then (.idExhausted, s)
       else (.ok (idSearch s.users gen (gen 0) 0),
        { s with
            users := upd s.users (idSearch s.users gen (gen 0) 0)
              (freshUser hash now sid (normalizePhone phone) d)
            usersByPhone := upd s.usersByPhone (normalizePhone phone)
              (idSearch s.users gen (gen 0) 0)
            userSockets := upd s.userSockets sid (idSearch s.users gen (gen 0) 0) })) := by
  unfold registerOp
  rw [hph]
  dsimp only
  rw [if_neg hpe, hbp]

/-- Evaluation of the two-element sort-and-join of `getChatId`. -/
theorem getChatId_eq (a b : String) :
    getChatId a b = if a ≤ b then a ++ "_" ++ b else b ++ "_" ++ a := by
  rw [getChatId]
  simp only [List.mergeSort, List.merge]
  split
  · simp_all [String.intercalate, String.intercalate.go]
  · simp_all [String.intercalate, String.intercalate.go]

/-- C5: the phone-normalization function is idempotent, maps a digit string
`p` and its `"+"`-prefixed form `"+" ++ p` both to `"+" ++ p`, and in
particular sends both `"1234567"` and `"+1234567"` to `"+1234567"`. -/
theorem C5_normalizePhone_idempotent_digits :
    (∀ p : String, normalizePhone (normalizePhone p) = normalizePhone p)
    ∧ (∀ p : String, p.1.all Char.isDigit →
        normalizePhone p = "+" ++ p ∧ normalizePhone ("+" ++ p) = "+" ++ p)
    ∧ normalizePhone "1234567" = "+1234567"
    ∧ normalizePhone "+1234567" = "+1234567" := by
  have hplus : ∀ p : String, normalizePhone ("+" ++ p) = "+" ++ p := by
    intro p
    rw [normalizePhone, startsWith_plus_append]
    simp
  refine ⟨?_, ?_, ?_, ?_⟩
  · intro p
    cases h : p.startsWith "+" with
    | true =>
      have h1 : normalizePhone p = p := by simp [normalizePhone, h]
      rw [h1]
      exact h1
    | false =>
      have h1 : normalizePhone p = "+" ++ p := by simp [normalizePhone, h]
      rw [h1, hplus]
  · intro p hd
    have h0 : p.startsWith "+" = false := startsWith_plus_of_digits p hd
    exact ⟨by simp [normalizePhone, h0], hplus p⟩
  · rw [normalizePhone, startsWith_plus]
    decide
  · rw [normalizePhone, startsWith_plus]
    decide

/-- Witness for C5 at the concrete digit string `"555"`. -/
theorem C5_witness :
    normalizePhone "555" = "+" ++ "555" ∧ normalizePhone ("+" ++ "555") = "+" ++ "555" :=
  C5_normalizePhone_idempotent_digits.2.1 "555" (by decide)

/-- C6: the channel-id function is symmetric in its two arguments, and its
value is the lexicographically sorted pair of ids joined with an
underscore, so both parties compute the same channel id. -/
theorem C6_getChatId_comm_sorted (a b : String) :
    getChatId a b = getChatId b a
    ∧ getChatId a b = (if a ≤ b then a ++ "_" ++ b else b ++ "_" ++ a) := by
  refine ⟨?_, getChatId_eq a b⟩
  rw [getChatId_eq, getChatId_eq]
  by_cases hab : a ≤ b
  · by_cases hba : b ≤ a
    · have hcomm : a = b := le_antisymm hab hba
      rw [hcomm]
    · rw [if_pos hab, if_neg hba]
  · have hba : b ≤ a := (le_total a b).resolve_left hab
    rw [if_neg hab, if_pos hba]


/-- C8: once the phone checks pass, the register handler draws at most the
six candidates `gen 0 .. gen 5` (the initial one plus five retries); it
fails with `IdExhausted` exactly when the final drawn candidate still
collides, equivalently when all six candidates collide; on that failure the
state is unchanged, and on success the issued id is one of the six drawn
candidates and is free. -/
theorem C8_register_retry_bound (hash : String → String) (gen : Nat → String)
    (now : Nat) (sid : String) (d : RegisterData) (s : ServerState) (phone : String)
    (hph : d.phoneNumber = some phone) (hpe : phone ≠ "")
    (hbp : s.usersByPhone (normalizePhone phone) = none) :
    ((registerOp hash gen now sid d s).1 = .idExhausted ↔
      ∀ i, i ≤ 5 → (s.users (gen i)).isSome = true)
    ∧ ((registerOp hash gen now sid d s).1 = .idExhausted →
        (registerOp hash gen now sid d s).2 = s)
    ∧ (∀ uid, (registerOp hash gen now sid d s).1 = .ok uid →
        ∃ j, j ≤ 5 ∧ uid = gen j ∧ s.users (gen j) = none) := by
  rw [registerOp_reduce hash gen now sid d s phone hph hpe hbp]
  have hall : (s.users (idSearch s.users gen (gen 0) 0)).isSome = true ↔
      ∀ i, i ≤ 5 → (s.users (gen i)).isSome = true := by
    rw [idSearch_isSome_iff s.users gen 5 0 (gen 0) rfl]
    constructor
    · rintro ⟨h0, hrest⟩ i hi
      by_cases h : i = 0
      · rw [h]; exact h0
      · exact hrest i (by omega) hi
    · intro h
      exact ⟨h 0 (by omega), fun i h1 h2 => h i h2⟩
  by_cases hex : (s.users (idSearch s.users gen (gen 0) 0)).isSome = true
  · rw [if_pos hex]
    refine ⟨?_, ?_, ?_⟩
    · exact ⟨fun _ => hall.mp hex, fun _ => rfl⟩
    · intro _
      rfl
    · intro uid hcontra
      exact absurd hcontra (by simp)
  · rw [if_neg hex]
    refine ⟨?_, ?_, ?_⟩
    · constructor
      · intro hcontra
        exact absurd hcontra (by simp)
      · intro h
        exact absurd (hall.mpr h) hex
    · intro hcontra
      exact absurd hcontra (by simp)
    · intro uid hok
      have huid : uid = idSearch s.users gen (gen 0) 0 := by
        have := RegisterResult.ok.inj hok
        exact this.symm
      obtain ⟨j, _hj0, hj5, hjeq⟩ := idSearch_result s.users gen 5 0 rfl (by omega)
      refine ⟨j, hj5, ?_, ?_⟩
      · rw [huid, hjeq]
      · rw [← hjeq]
        exact Option.not_isSome_iff_eq_none.mp (by simpa using hex)

/-- Witness for C8: on the empty state with a constant generator, the
retry loop cannot be exhausted and registration issues the drawn id. -/
theorem C8_witness :
    (registerOp (fun x => x) (fun _ => "UUUUUUU") 0 "s1"
        { phoneNumber := some "7", name := none, password := none, country := none }
        initState).1 = .idExhausted ↔
      ∀ i, i ≤ 5 → ((initState.users ((fun _ : Nat => "UUUUUUU") i)).isSome = true) :=
  (C8_register_retry_bound (fun x => x) (fun _ => "UUUUUUU") 0 "s1"
    { phoneNumber := some "7", name := none, password := none, country := none }
    initState "7" rfl (by decide) rfl).1

/-- C2: if an identity was issued `uid` for a phone, then after any further
clear-free activity, a second register call carrying the same normalized
phone number fails with `AlreadyRegistered` returning that original id,
and the state is completely unchanged. -/
theorem C2_register_already_registered (hash : String → String)
    (gen1 gen2 : Nat → String) (now1 now2 : Nat) (sid1 sid2 : String)
    (d1 d2 : RegisterData) (s0 s1 : ServerState) (ops : List Op)
    (phone1 phone2 uid : String)
    (hph1 : d1.phoneNumber = some phone1)
    (hok : registerOp hash gen1 now1 sid1 d1 s0 = (.ok uid, s1))
    (hops : ∀ op ∈ ops, op.clears = false)
    (hph2 : d2.phoneNumber = some phone2) (hpe2 : phone2 ≠ "")
    (hnorm : normalizePhone phone2 = normalizePhone phone1) :
    registerOp hash gen2 now2 sid2 d2 (ops.foldl (step hash) s1) =
      (.alreadyRegistered uid, ops.foldl (step hash) s1) := by
  obtain ⟨phone, hph, _hpe, _hbp, _hnew, _huid, hs1⟩ :=
    registerOp_ok hash gen1 now1 sid1 d1 s0 s1 uid hok
  have hphone : phone = phone1 := by
    rw [hph1] at hph
    exact (Option.some.inj hph).symm
  have hidx1 : s1.usersByPhone (normalizePhone phone1) = some uid := by
    rw [hs1, ← hphone]
    simp [upd]
  have hidx : (ops.foldl (step hash) s1).usersByPhone (normalizePhone phone1) = some uid :=
    usersByPhone_persist hash ops s1 (normalizePhone phone1) uid hops hidx1
  unfold registerOp
  rw [hph2]
  dsimp only
  rw [if_neg hpe2, hnorm, hidx]


/-- Concrete demonstration trace: one registration of phone `"1"` with
secret `"pw"` on socket `"s1"`, issuing id `"AAAAAAA"` (the id generator
and the hash are instantiated with constants and the identity function). -/
def demoOps : List Op :=
  [.register (fun _ => "AAAAAAA") 0 "s1"
    { phoneNumber := some "1", name := none, password := some "pw", country := none }]

/-- State produced by `demoOps`. -/
def demoState : ServerState := run (fun x => x) demoOps

theorem demoState_users :
    demoState.users "AAAAAAA" =
      some (freshUser (fun x => x) 0 "s1" "+1"
        { phoneNumber := some "1", name := none, password := some "pw", country := none }) := by
  simp [demoState, demoOps, run, step, registerOp, initState, idSearch,
    normalizePhone, startsWith_plus, upd]

theorem demoState_phone : demoState.usersByPhone "+1" = some "AAAAAAA" := by
  simp [demoState, demoOps, run, step, registerOp, initState, idSearch,
    normalizePhone, startsWith_plus, upd]

theorem demoState_socket : demoState.userSockets "s1" = some "AAAAAAA" := by
  simp [demoState, demoOps, run, step, registerOp, initState, idSearch,
    normalizePhone, startsWith_plus, upd]

theorem normalizePhone_one : normalizePhone "1" = "+1" := by
  rw [normalizePhone, startsWith_plus]
  decide

/-- C3 counterexample: with an identity registered under phone `"1"` and a
non-empty secret, a login supplying the same phone and the empty secret has
a credential hash differing from the stored one, yet the call fails with
the missing-field error, not `InvalidCredential`, because the empty secret
is rejected as falsy before the phone is even resolved. -/
theorem C3_counterexample :
    demoState.usersByPhone (normalizePhone "1") = some "AAAAAAA"
    ∧ (demoState.users "AAAAAAA").map User.password = some "pw"
    ∧ (fun x : String => x) "" ≠ "pw"
    ∧ loginOp (fun x => x) 5 "s2" { phoneNumber := some "1", password := some "" } demoState
        = (.missingField, demoState)
    ∧ LoginResult.missingField ≠ LoginResult.invalidCredential := by
  refine ⟨?_, ?_, by decide, rfl, by decide⟩
  · rw [normalizePhone_one]
    exact demoState_phone
  · rw [demoState_users]
    rfl

/-- C3 (amended): for every login call carrying a non-empty phone that
resolves to a registered identity and a non-empty secret whose hash differs
from the stored credential hash, the call fails with `InvalidCredential`
and the entire state — in particular `lastSeen`, the socket pointer and
all four maps — is unchanged. -/
theorem C3_login_invalid_secret (hash : String → String) (now : Nat) (sid : String)
    (d : LoginData) (s : ServerState) (phone pw uid : String) (user : User)
    (hph : d.phoneNumber = some phone) (hpe : phone ≠ "")
    (hpw : d.password = some pw) (hpwe : pw ≠ "")
    (hres : s.usersByPhone (normalizePhone phone) = some uid) (hue : uid ≠ "")
    (hus : s.users uid = some user) (hmm : user.password ≠ hash pw) :
    loginOp hash now sid d s = (.invalidCredential, s) := by
  unfold loginOp
  rw [hph, hpw]
  dsimp only
  rw [if_neg (by push_neg; exact ⟨hpe, hpwe⟩), hres]
  dsimp only
  rw [if_neg hue, hus]
  dsimp only
  rw [if_pos hmm]

/-- Witness for C3 on the demonstration state: a wrong non-empty secret is
rejected with `InvalidCredential` and the state is returned unchanged. -/
theorem C3_witness :
    loginOp (fun x => x) 5 "s2" { phoneNumber := some "1", password := some "xx" } demoState
      = (.invalidCredential, demoState) :=
  C3_login_invalid_secret (fun x => x) 5 "s2"
    { phoneNumber := some "1", password := some "xx" } demoState "1" "xx" "AAAAAAA"
    (freshUser (fun x => x) 0 "s1" "+1"
      { phoneNumber := some "1", name := none, password := some "pw", country := none })
    rfl (by decide) rfl (by decide)
    (by rw [normalizePhone_one]; exact demoState_phone) (by decide)
    demoState_users (by decide)

/-- C4: a successful login returns exactly the public summary fields of the
authenticated identity — id, phoneNumber, name, country, language and the
freshly updated lastSeen — while the stored user is rebound to the calling
socket; and the public summary is independent of the stored credential
hash, so the hash cannot occur in the returned result. -/
theorem C4_login_success_summary (hash : String → String) (now : Nat) (sid : String)
    (d : LoginData) (s : ServerState) (phone pw uid : String) (user : User)
    (hph : d.phoneNumber = some phone) (hpe : phone ≠ "")
    (hpw : d.password = some pw) (hpwe : pw ≠ "")
    (hres : s.usersByPhone (normalizePhone phone) = some uid) (hue : uid ≠ "")
    (hus : s.users uid = some user) (hmatch : user.password = hash pw) :
    loginOp hash now sid d s =
      (.ok uid { id := uid, phoneNumber := user.phoneNumber, name := user.name,
                 country := user.country, language := user.language, lastSeen := now },
       { s with
           users := upd s.users uid { user with socketId := some sid, lastSeen := now }
           userSockets := upd s.userSockets sid uid })
    ∧ (∀ (uid2 : String) (u2 : User) (v : String),
        publicSummary uid2 { u2 with password := v } = publicSummary uid2 u2) := by
  constructor
  · unfold loginOp
    rw [hph, hpw]
    dsimp only
    rw [if_neg (by push_neg; exact ⟨hpe, hpwe⟩), hres]
    dsimp only
    rw [if_neg hue, hus]
    dsimp only
    rw [if_neg (by simp [hmatch])]
    rfl
  · intro uid2 u2 v
    rfl

/-- Witness for C4: logging in with the correct secret on the
demonstration state returns the public summary with `lastSeen = 7`. -/
theorem C4_witness :
    (loginOp (fun x => x) 7 "s2" { phoneNumber := some "1", password := some "pw" }
        demoState).1 =
      .ok "AAAAAAA" { id := "AAAAAAA", phoneNumber := "+1", name := "",
                      country := "", language := "en", lastSeen := 7 } :=
  congrArg Prod.fst
    (C4_login_success_summary (fun x => x) 7 "s2"
      { phoneNumber := some "1", password := some "pw" } demoState "1" "pw" "AAAAAAA"
      (freshUser (fun x => x) 0 "s1" "+1"
        { phoneNumber := some "1", name := none, password := some "pw", country := none })
      rfl (by decide) rfl (by decide)
      (by rw [normalizePhone_one]; exact demoState_phone) (by decide)
      demoState_users rfl).1

/-- C10: an identity registered with an absent or empty secret stores the
hash of the empty string as its credential, and every login call whose
secret is absent or empty fails with the missing-field error for any state,
before any credential is compared. -/
theorem C10_empty_secret_lockout (hash : String → String) :
    (∀ (gen : Nat → String) (now : Nat) (sid : String) (d : RegisterData)
        (s sr : ServerState) (uid : String),
        falsyStr d.password = true →
        registerOp hash gen now sid d s = (.ok uid, sr) →
        (sr.users uid).map User.password = some (hash ""))
    ∧ (∀ (now : Nat) (sid : String) (d : LoginData) (s : ServerState),
        falsyStr d.password = true →
        loginOp hash now sid d s = (.missingField, s)) := by
  constructor
  · intro gen now sid d s sr uid hf hok
    obtain ⟨phone, _hph, _hpe, _hbp, _hnew, _huid, hsr⟩ :=
      registerOp_ok hash gen now sid d s sr uid hok
    rw [hsr]
    have hd : (d.password).getD "" = "" := by
      match hdp : d.password with
      | none => rfl
      | some p =>
        rw [hdp] at hf
        have : p = "" := of_decide_eq_true hf
        rw [this]
        rfl
    simp [upd, freshUser, hd]
  · intro now sid d s hf
    unfold loginOp
    match hph : d.phoneNumber, hpw : d.password with
    | none, none => rfl
    | none, some p => rfl
    | some ph, none => rfl
    | some ph, some p =>
      rw [hpw] at hf
      have hp : p = "" := of_decide_eq_true hf
      dsimp only
      rw [if_pos (Or.inr hp)]

/-- Witness for C10: the registered empty-secret identity of a one-step
trace stores `hash("")`, and a login presenting the matching empty secret
is rejected with the missing-field error. -/
theorem C10_witness :
    loginOp (fun x => x) 3 "s1" { phoneNumber := some "1", password := some "" } initState
      = (.missingField, initState) :=
  (C10_empty_secret_lockout (fun x => x)).2 3 "s1"
    { phoneNumber := some "1", password := some "" } initState (by decide)


/-- Witness for C2: registering phone `"1"` twice (no clears in between)
fails the second time with `AlreadyRegistered` carrying the original id. -/
theorem C2_witness :
    registerOp (fun x => x) (fun _ => "BBBBBBB") 1 "s2"
      { phoneNumber := some "1", name := none, password := none, country := none } demoState
      = (.alreadyRegistered "AAAAAAA", demoState) :=
  C2_register_already_registered (fun x => x) (fun _ => "AAAAAAA") (fun _ => "BBBBBBB")
    0 1 "s1" "s2"
    { phoneNumber := some "1", name := none, password := some "pw", country := none }
    { phoneNumber := some "1", name := none, password := none, country := none }
    initState demoState [] "1" "1" "AAAAAAA" rfl
    (by
      refine Prod.ext_iff.mpr ⟨?_, rfl⟩
      simp [registerOp, initState, idSearch, normalizePhone, startsWith_plus, upd])
    (by simp) rfl (by decide) rfl

/-- C9: disconnecting a socket bound to an identity changes only that
identity's socket pointer (nulled) and `lastSeen` (stamped) and removes the
one connection-index entry; all other identities, the phone index, the
histories and the room memberships are untouched, and the identity stays
retrievable by id and by its phone number. -/
theorem C9_disconnect_frame_effects (hash : String → String) (now : Nat) (sid : String)
    (s : ServerState) (uid : String) (u : User)
    (hreach : Reachable hash s)
    (hbind : s.userSockets sid = some uid) (hue : uid ≠ "")
    (hus : s.users uid = some u) :
    (disconnectOp now sid s).users uid = some { u with socketId := none, lastSeen := now }
    ∧ (∀ uid2, uid2 ≠ uid → (disconnectOp now sid s).users uid2 = s.users uid2)
    ∧ (disconnectOp now sid s).userSockets sid = none
    ∧ (∀ sid2, sid2 ≠ sid → (disconnectOp now sid s).userSockets sid2 = s.userSockets sid2)
    ∧ (disconnectOp now sid s).usersByPhone = s.usersByPhone
    ∧ (disconnectOp now sid s).messages = s.messages
    ∧ (disconnectOp now sid s).rooms = s.rooms
    ∧ (disconnectOp now sid s).usersByPhone u.phoneNumber = some uid := by
  have hphone := reachable_phoneIndexInv hash s hreach uid u hus
  unfold disconnectOp
  rw [hbind]
  dsimp only
  rw [if_neg hue, hus]
  dsimp only
  refine ⟨?_, ?_, ?_, ?_, rfl, rfl, rfl, hphone⟩
  · simp [upd]
  · intro uid2 hne
    simp [upd, hne]
  · simp [del]
  · intro sid2 hne
    simp [del, hne]

/-- Witness for C9: disconnecting the demonstration identity nulls its
socket pointer and stamps `lastSeen` while keeping the record. -/
theorem C9_witness :
    (disconnectOp 7 "s1" demoState).users "AAAAAAA" =
      some { freshUser (fun x => x) 0 "s1" "+1"
              { phoneNumber := some "1", name := none, password := some "pw", country := none }
             with socketId := none, lastSeen := 7 } :=
  (C9_disconnect_frame_effects (fun x => x) 7 "s1" demoState "AAAAAAA" _
    ⟨demoOps, rfl⟩ demoState_socket (by decide) demoState_users).1

/-- C1 (amended): in every reachable state every connection-index entry
points to an existing identity, and immediately after a successful register
or login the newly bound identity's socket pointer and the connection index
agree; the claimed bidirectional invariant for every identity with a
non-null pointer fails, because a later bind on the same connection leaves
the earlier identity's pointer stale. -/
theorem C1_connection_index (hash : String → String) (s : ServerState)
    (hreach : Reachable hash s) :
    SocketIndexInv s
    ∧ (∀ (gen : Nat → String) (now : Nat) (sid : String) (d : RegisterData)
        (uid : String) (sr : ServerState),
        registerOp hash gen now sid d s = (.ok uid, sr) →
        (sr.users uid).map User.socketId = some (some sid) ∧ sr.userSockets sid = some uid)
    ∧ (∀ (now : Nat) (sid : String) (d : LoginData) (uid : String) (r : UserSummary)
        (sr : ServerState),
        loginOp hash now sid d s = (.ok uid r, sr) →
        (sr.users uid).map User.socketId = some (some sid) ∧ sr.userSockets sid = some uid) := by
  refine ⟨reachable_socketIndexInv hash s hreach, ?_, ?_⟩
  · intro gen now sid d uid sr hok
    obtain ⟨phone, _h1, _h2, _h3, _h4, _h5, hsr⟩ := registerOp_ok hash gen now sid d s sr uid hok
    rw [hsr]
    constructor
    · simp [upd, freshUser]
    · simp [upd]
  · intro now sid d uid r sr hok
    obtain ⟨phone, password, user, _h1, _h2, _h3, _h4, _h5, _h6, _h7, _h8, _h9, hsr⟩ :=
      loginOp_ok hash now sid d s sr uid r hok
    rw [hsr]
    constructor
    · simp [upd]
    · simp [upd]

/-- Witness for C1: after the demonstration registration the freshly bound
identity and the connection index agree in both directions. -/
theorem C1_witness :
    (demoState.users "AAAAAAA").map User.socketId = some (some "s1")
    ∧ demoState.userSockets "s1" = some "AAAAAAA" :=
  (C1_connection_index (fun x => x) initState ⟨[], rfl⟩).2.1 (fun _ => "AAAAAAA") 0 "s1"
    { phoneNumber := some "1", name := none, password := some "pw", country := none }
    "AAAAAAA" demoState
    (by
      refine Prod.ext_iff.mpr ⟨?_, rfl⟩
      simp [registerOp, initState, idSearch, normalizePhone, startsWith_plus, upd])

/-- Trace refuting the claimed invariant: two different registrations on
the same socket `"s1"`. -/
def c1Ops : List Op :=
  [.register (fun _ => "AAAAAAA") 0 "s1"
    { phoneNumber := some "1", name := none, password := none, country := none },
   .register (fun _ => "BBBBBBB") 0 "s1"
    { phoneNumber := some "2", name := none, password := none, country := none }]

/-- State produced by `c1Ops`. -/
def c1State : ServerState := run (fun x => x) c1Ops

theorem c1State_userA :
    c1State.users "AAAAAAA" =
      some (freshUser (fun x => x) 0 "s1" "+1"
        { phoneNumber := some "1", name := none, password := none, country := none }) := by
  simp [c1State, c1Ops, run, step, registerOp, initState, idSearch,
    normalizePhone, startsWith_plus, upd]

theorem c1State_socket : c1State.userSockets "s1" = some "BBBBBBB" := by
  simp [c1State, c1Ops, run, step, registerOp, initState, idSearch,
    normalizePhone, startsWith_plus, upd]

/-- C1 counterexample: in the reachable state where `"AAAAAAA"` registered
on socket `"s1"` and then `"BBBBBBB"` registered on the same socket, the
identity `"AAAAAAA"` still holds the non-null socket pointer `"s1"`, but
the connection index maps `"s1"` to `"BBBBBBB"`, so the claimed invariant
is violated. -/
theorem C1_counterexample :
    Reachable (fun x => x) c1State
    ∧ (c1State.users "AAAAAAA").map User.socketId = some (some "s1")
    ∧ c1State.userSockets "s1" = some "BBBBBBB"
    ∧ ¬ SocketBacklinkInv c1State := by
  refine ⟨⟨c1Ops, rfl⟩, ?_, c1State_socket, ?_⟩
  · rw [c1State_userA]
    rfl
  · intro hinv
    have hA := hinv "AAAAAAA" _ "s1" c1State_userA rfl
    rw [c1State_socket] at hA
    exact absurd (Option.some.inj hA) (by decide)

/-- C7 counterexample: a message whose `userId` field is present but empty
and whose `timestamp` field is present but `0` is stored with the sentinel
sender `"unknown"` and the server-assigned time, because both fields are
falsy in JavaScript, contradicting the claim that any present field is
used. -/
theorem C7_counterexample :
    sendMessageOp 9 "s1" (some "chat")
        (some { userId := some "", timestamp := some 0, payload := "hi" }) initState
      = (.broadcast "chat" { userId := "unknown", timestamp := 9, payload := "hi" },
         { initState with
             messages := upd initState.messages "chat"
               [{ userId := "unknown", timestamp := 9, payload := "hi" }] })
    ∧ ("unknown" : String) ≠ ""
    ∧ (9 : Nat) ≠ 0 :=
  ⟨rfl, by decide, by decide⟩

/-- C7 (amended): a `send_message` call with a present non-empty chatId and
a present message broadcasts and appends, at the end of the lazily created
history, the message with sender resolved to the explicit `userId` field if
present and non-empty, else the connection-index binding if present and
non-empty, else `"unknown"`; and with timestamp equal to the inbound one if
present and non-zero, else the server clock. -/
theorem C7_send_message (now : Nat) (sid : String) (cid : String) (msg : Msg)
    (s : ServerState) (hcid : cid ≠ "") :
    sendMessageOp now sid (some cid) (some msg) s =
      (.broadcast cid { userId := resolvedSender msg (s.userSockets sid),
                        timestamp := resolvedTimestamp msg now, payload := msg.payload },
       { s with
           messages := upd s.messages cid
             ((s.messages cid).getD [] ++
               [{ userId := resolvedSender msg (s.userSockets sid),
                  timestamp := resolvedTimestamp msg now, payload := msg.payload }]) })
    ∧ (∀ u, msg.userId = some u → u ≠ "" → resolvedSender msg (s.userSockets sid) = u)
    ∧ (falsyStr msg.userId = true → ∀ b, s.userSockets sid = some b → b ≠ "" →
        resolvedSender msg (s.userSockets sid) = b)
    ∧ (falsyStr msg.userId = true → falsyStr (s.userSockets sid) = true →
        resolvedSender msg (s.userSockets sid) = "unknown")
    ∧ (∀ t, msg.timestamp = some t → t ≠ 0 → resolvedTimestamp msg now = t)
    ∧ ((msg.timestamp = none ∨ msg.timestamp = some 0) → resolvedTimestamp msg now = now) := by
  refine ⟨?_, ?_, ?_, ?_, ?_, ?_⟩
  · unfold sendMessageOp
    dsimp only
    rw [if_neg hcid]
  · intro u hu hne
    simp [resolvedSender, truthyOr, hu, hne]
  · intro hf b hb hbne
    match hx : msg.userId with
    | none => simp [resolvedSender, truthyOr, hb, hbne, hx]
    | some x =>
      rw [hx] at hf
      have hxe : x = "" := of_decide_eq_true hf
      simp [resolvedSender, truthyOr, hb, hbne, hxe, hx]
  · intro hf hg
    match hx : msg.userId, hy : s.userSockets sid with
    | none, none => simp [resolvedSender, truthyOr, hx, hy]
    | none, some y =>
      rw [hy] at hg
      have hye : y = "" := of_decide_eq_true hg
      simp [resolvedSender, truthyOr, hye, hx, hy]
    | some x, none =>
      rw [hx] at hf
      have hxe : x = "" := of_decide_eq_true hf
      simp [resolvedSender, truthyOr, hxe, hx, hy]
    | some x, some y =>
      rw [hx] at hf
      rw [hy] at hg
      have hxe : x = "" := of_decide_eq_true hf
      have hye : y = "" := of_decide_eq_true hg
      simp [resolvedSender, truthyOr, hxe, hye, hx, hy]
  · intro t ht htne
    simp [resolvedTimestamp, ht, htne]
  · intro ht
    rcases ht with ht | ht
    · simp [resolvedTimestamp, ht]
    · simp [resolvedTimestamp, ht]

/-- Witness for C7: an explicit non-empty sender id and non-zero timestamp
are stored as given, appended to the empty history of a fresh channel. -/
theorem C7_witness :
    (sendMessageOp 4 "s1" (some "chat")
        (some { userId := some "u1", timestamp := some 3, payload := "hi" }) initState).1
      = .broadcast "chat" { userId := "u1", timestamp := 3, payload := "hi" } :=
  congrArg Prod.fst
    (C7_send_message 4 "s1" "chat"
      { userId := some "u1", timestamp := some 3, payload := "hi" } initState (by decide)).1

end ChatServer
